import Mathlib

/-!
Verification of the Direct-Debit Processing System lambdas against their
natural-language specification.

The repository's components are shallowly embedded:
* the Submission Store (a DynamoDB table keyed by `submissionId`) is a
  `List Submission` whose keys are unique;
* each Lambda handler becomes a pure Lean function from its inputs and the
  current store to a result and the new store;
* external collaborators (the AES block cipher, SHA-256, the JS `Date`
  formatter, the S3 upload) are parameters of the functions that call them,
  with the success/failure of the S3 upload an explicit `Bool`.
-/

namespace DirectDebit

/-- A submission record, as written to the DynamoDB table by the handoff
builder (`storeSubmissionData` in the handoff Lambda) and later mutated by the
webhook handler and the export Lambda.  Optional fields are absent until the
corresponding mutation sets them. -/
structure Submission where
  submissionId : String
  customerNumber : String
  postcode : String
  email : String
  formType : String
  service : String
  submissionDate : String
  status : String
  exported : Bool
  webhookData : Option String := none
  updatedAt : Option String := none
  exportedAt : Option String := none
deriving Repr, DecidableEq

/-! ## Handoff Builder (form-handler Lambda)

`validateAndSanitizeInput`, `determineServiceFromCustomerNumber` and the
handler are translated from the handoff Lambda.  The SSM secret fetch and
the encryption are collaborators, abstracted as the `encryptFn` parameter;
`crypto.randomUUID()` and `new Date()` are the `submissionId` and
`submissionDate` parameters. -/

/-- The JS regex whitespace class `\s` (ASCII fragment plus no-break
space, which covers every input considered here). -/
def jsSpaceB (c : Char) : Bool :=
  c == ' ' || c == '\t' || c == '\n' || c == '\r' || c == '\x0b' ||
    c == '\x0c' || c == '\xa0'

/-- Characters kept by the postcode sanitizer's regex class `[A-Z0-9\s]`. -/
def isPostcodeChar (c : Char) : Bool :=
  (decide ('A' ≤ c) && decide (c ≤ 'Z')) || c.isDigit || jsSpaceB c

/-- The test `^(1000|2000)\d{7}$` applied to the digit-filtered customer
number: eleven digits starting with one of the two fixed prefixes. -/
def customerNumberTest (l : List Char) : Bool :=
  decide (l.length = 11) &&
    (decide (l.take 4 = "1000".data) || decide (l.take 4 = "2000".data)) &&
    l.all Char.isDigit

/-- One atom of the email regex: a non-empty run of `[^\s@]`. -/
def emailAtomOk (l : List Char) : Bool :=
  !l.isEmpty && l.all (fun c => !jsSpaceB c && c != '@')

/-- The email test `^[^\s@]+@[^\s@]+\.[^\s@]+$`: the string splits as
`A ++ "@" ++ B ++ "." ++ C` with `A`, `B`, `C` non-empty runs of
`[^\s@]` (`i` is the position of the at sign, `j` of the dot). -/
def emailOk (s : String) : Bool :=
  let cs := s.data
  (List.range cs.length).any (fun i =>
    (List.range cs.length).any (fun j =>
      decide (i < j) && cs.getD i ' ' == '@' && cs.getD j ' ' == '.' &&
      emailAtomOk (cs.take i) &&
      emailAtomOk ((cs.drop (i + 1)).take (j - i - 1)) &&
      emailAtomOk (cs.drop (j + 1))))

/-- `validateAndSanitizeInput` of the handoff Lambda: strip the customer
number to digits and test the prefix pattern; strip the postcode to
`[A-Z0-9\s]`, truncate to 10 and require total length at least 5 (spaces
count); test the email shape.  Failures throw, modelled as `Except.error`
with the thrown message. -/
def validateAndSanitizeInput (customerNumber postcode email : String) :
    Except String (String × String × String) :=
  let sanitizedCustomerNumber := customerNumber.data.filter Char.isDigit
  if ¬ customerNumberTest sanitizedCustomerNumber then
    Except.error "Invalid customer number format"
  else
    let sanitizedPostcode := (postcode.data.filter isPostcodeChar).take 10
    if sanitizedPostcode.length < 5 then
      Except.error "Invalid postcode format"
    else if ¬ emailOk email then
      Except.error "Invalid email format"
    else
      Except.ok (String.mk sanitizedCustomerNumber,
                 String.mk sanitizedPostcode, email)

/-- `determineServiceFromCustomerNumber`: dispatch on the fixed prefixes. -/
def determineServiceFromCustomerNumber (customerNumber : String) :
    Except String String :=
  if customerNumber.data.take 4 = "1000".data then Except.ok "council-a"
  else if customerNumber.data.take 4 = "2000".data then Except.ok "council-b"
  else Except.error "Invalid customer number prefix"

/-- JS `a || d` for an optional string: null and the empty string are
falsy and give the default. -/
def jsOr (o : Option String) (d : String) : String :=
  match o with
  | some s => if s = "" then d else s
  | none => d

/-- JS falsiness of an optional string parameter. -/
def falsy : Option String → Bool
  | none => true
  | some s => s == ""

/-- The success body of the handoff handler (the derived `redirectUrl`,
`baseUrl ++ "?eData=" ++ encodeURIComponent encryptedData`, is determined
by the `baseUrl` and `encryptedData` fields kept here). -/
structure BuildOk where
  submissionId : String
  encryptedData : String
  formType : String
  service : String
  baseUrl : String
  queryString : String
deriving Repr, DecidableEq

/-- Responses of the handoff handler: 400 for missing parameters, 500 for
a thrown validation error (the handler's single catch block), 400 for a
service mismatch, 200 with the success body. -/
inductive BuildResponse where
  | missingParams
  | serverError (msg : String)
  | serviceMismatch
  | ok (r : BuildOk)
deriving Repr, DecidableEq

/-- The form-type field echoed in a successful response. -/
def respFormType : BuildResponse → Option String
  | BuildResponse.ok r => some r.formType
  | _ => none

/-- The base redirect URL of a successful response. -/
def respBaseUrl : BuildResponse → Option String
  | BuildResponse.ok r => some r.baseUrl
  | _ => none

/-- The external endpoint selected by `(formType, service)`: the customer
endpoints exactly when the raw form type is the string "user", the agent
endpoints otherwise. -/
def baseUrlFor (formType : Option String) (service : String) : String :=
  if formType = some "user" then
    if service = "council-a" then
      "https://verification.thirdparty.com/forms/council-a/customer"
    else
      "https://verification.thirdparty.com/forms/council-b/customer"
  else
    if service = "council-a" then
      "https://verification.thirdparty.com/forms/council-a/agent"
    else
      "https://verification.thirdparty.com/forms/council-b/agent"

/-- The query-string projection of a successful response (the payload the
codec encrypts, carrying the selected field set). -/
def respQueryString : BuildResponse → Option String
  | BuildResponse.ok r => some r.queryString
  | _ => none

/-- The user-variant field set appended to the outbound query string. -/
def userFieldSuffix (customerNumber : String) : String :=
  "&DdPlanReference=" ++ customerNumber ++
    "&showddplanreference=visible&showdob=hidden&showmobile=hidden"

/-- The advisor-variant field set appended to the outbound query string. -/
def advisorFieldSuffix (customerNumber : String) : String :=
  "&DdPlanReference=" ++ customerNumber ++
    "&showddplanfields=hidden&applyingascompany=false" ++
    "&showapplyingascompanycheck=hidden&showdob=hidden&showmobile=hidden"

/-- The customer-data fields shared by all four form variants. -/
def baseCustomerDataFor
    (customerNumber postcode email submissionId callbackURL : String) :
    String :=
  "customer_number=" ++ customerNumber ++ "&postcode=" ++ postcode
    ++ "&CurrentPostcode=" ++ postcode ++ "&Email=" ++ email
    ++ "&EmailRetype=" ++ email ++ "&CustomData=" ++ submissionId
    ++ "&CallbackURL=" ++ callbackURL

/-- The full outbound query string selected by the form variant: the
user-variant field set exactly when the raw form type is the string
"user", the advisor-variant field set otherwise. -/
def queryStringFor (formType : Option String)
    (customerNumber postcode email submissionId callbackURL : String) :
    String :=
  baseCustomerDataFor customerNumber postcode email submissionId callbackURL
    ++ (if formType = some "user" then userFieldSuffix customerNumber
        else advisorFieldSuffix customerNumber)

/-- The handoff handler (`build` in the spec), for a request carrying the
given raw parameters.  `encryptFn` stands for `encryptQueryString`
applied to the organization's shared secret. -/
def buildHandler (encryptFn : String → String)
    (submissionId submissionDate callbackURL : String)
    (rawCustomerNumber rawPostcode rawEmail formType
      requestedService : Option String) :
    BuildResponse × Option Submission :=
  if falsy rawCustomerNumber || falsy rawPostcode || falsy rawEmail then
    (BuildResponse.missingParams, none)
  else
    let cn := rawCustomerNumber.getD ""
    let pc := rawPostcode.getD ""
    let em := rawEmail.getD ""
    match validateAndSanitizeInput cn (String.mk (pc.data.map Char.toUpper))
        em with
    | Except.error msg => (BuildResponse.serverError msg, none)
    | Except.ok (customerNumber, postcode, email) =>
      match determineServiceFromCustomerNumber customerNumber with
      | Except.error msg => (BuildResponse.serverError msg, none)
      | Except.ok service =>
        let reqMismatch : Bool :=
          match requestedService with
          | some rs => !(rs == "") && !(rs == service)
          | none => false
        if reqMismatch then
          (BuildResponse.serviceMismatch, none)
        else
          let stored : Submission :=
            { submissionId, customerNumber, postcode, email,
              formType := jsOr formType "advisor", service, submissionDate,
              status := "pending", exported := false }
          let baseCustomerData :=
            "customer_number=" ++ customerNumber ++ "&postcode=" ++ postcode
              ++ "&CurrentPostcode=" ++ postcode ++ "&Email=" ++ email
              ++ "&EmailRetype=" ++ email ++ "&CustomData=" ++ submissionId
              ++ "&CallbackURL=" ++ callbackURL
          let userSuffix :=
            "&DdPlanReference=" ++ customerNumber ++
              "&showddplanreference=visible&showdob=hidden&showmobile=hidden"
          let advisorSuffix :=
            "&DdPlanReference=" ++ customerNumber ++
              "&showddplanfields=hidden&applyingascompany=false" ++
              "&showapplyingascompanycheck=hidden&showdob=hidden&showmobile=hidden"
          let completeQueryString := baseCustomerData ++
            (if formType = some "user" then userSuffix else advisorSuffix)
          let encryptedData := encryptFn completeQueryString
          (BuildResponse.ok
            { submissionId, encryptedData,
              formType := jsOr formType "advisor", service,
              baseUrl := baseUrlFor formType service,
              queryString := completeQueryString },
           some stored)

/-! ## Verification Receiver (webhook-handler Lambda)

The callback body is parsed with `JSON.parse` first and a `URLSearchParams`
fallback.  Both builtins are modelled here on the scalar fragment the
webhook payloads use (flat objects of strings, booleans, integers and null;
ASCII percent-escapes); inputs outside the fragment make the JSON model
fail, which routes to the form fallback exactly as a `JSON.parse` exception
would. -/

/-- A JavaScript value as produced by parsing the callback body (restricted
to the scalar types the webhook payload uses). -/
inductive JSVal where
  | str (s : String)
  | bool (b : Bool)
  | num (n : Int)
  | null
deriving Repr, DecidableEq

/-- Property lookup on a parsed JS object. -/
def objGet (obj : List (String × JSVal)) (key : String) : Option JSVal :=
  (obj.find? (fun p => p.1 == key)).map (fun p => p.2)

/-- Property assignment on a JS object: an existing key keeps its position
and takes the new value (as with repeated JSON keys or
`Object.fromEntries`), a new key is appended. -/
def setKey (obj : List (String × JSVal)) (key : String) (v : JSVal) :
    List (String × JSVal) :=
  if obj.any (fun p => p.1 == key) then
    obj.map (fun p => if p.1 == key then (p.1, v) else p)
  else
    obj ++ [(key, v)]

/-- Value of a hex digit, for percent-escapes. -/
def hexVal (c : Char) : Option Nat :=
  if '0' ≤ c ∧ c ≤ '9' then some (c.toNat - 48)
  else if 'A' ≤ c ∧ c ≤ 'F' then some (c.toNat - 55)
  else if 'a' ≤ c ∧ c ≤ 'f' then some (c.toNat - 87)
  else none

/-- Percent-decoding as `URLSearchParams` applies it to keys and values:
plus becomes space, a percent sign followed by two hex digits becomes that
code point (ASCII fragment), anything else passes through. -/
def percentDecode : List Char → List Char
  | [] => []
  | '+' :: rest => ' ' :: percentDecode rest
  | '%' :: h1 :: h2 :: rest =>
      match hexVal h1, hexVal h2 with
      | some a, some b => Char.ofNat (16 * a + b) :: percentDecode rest
      | _, _ => '%' :: percentDecode (h1 :: h2 :: rest)
  | c :: rest => c :: percentDecode rest

/-- Split a character list at every occurrence of `sep` (keeping empty
segments, like `String.prototype.split`). -/
def splitOnChar (sep : Char) : List Char → List (List Char)
  | [] => [[]]
  | c :: rest =>
      let r := splitOnChar sep rest
      if c = sep then [] :: r
      else
        match r with
        | h :: t => (c :: h) :: t
        | [] => [[c]]

/-- `new URLSearchParams(body)` followed by `Object.fromEntries`: split on
ampersands, split each pair at its first equals sign, percent-decode both
halves, later duplicates of a key overwrite its value. -/
def formParse (body : String) : List (String × JSVal) :=
  let segs := (splitOnChar '&' body.data).filter (fun s => s ≠ [])
  let pairs := segs.map (fun seg =>
    match seg.findIdx? (fun c => c = '=') with
    | some i => (String.mk (percentDecode (seg.take i)),
                 String.mk (percentDecode (seg.drop (i + 1))))
    | none => (String.mk (percentDecode seg), ""))
  pairs.foldl (fun obj p => setKey obj p.1 (JSVal.str p.2)) []

/-- Whitespace skipping for the JSON model. -/
def skipWs : List Char → List Char
  | c :: rest =>
      if c = ' ' ∨ c = '\t' ∨ c = '\n' ∨ c = '\r' then skipWs rest
      else c :: rest
  | [] => []

/-- Parse a JSON string body after the opening quote (basic escapes);
returns the content and the input following the closing quote. -/
def parseJsonString : List Char → Option (List Char × List Char)
  | [] => none
  | '"' :: rest => some ([], rest)
  | '\\' :: e :: rest =>
      match parseJsonString rest with
      | some (s, r) =>
          match e with
          | '"' => some ('"' :: s, r)
          | '\\' => some ('\\' :: s, r)
          | '/' => some ('/' :: s, r)
          | 'n' => some ('\n' :: s, r)
          | 't' => some ('\t' :: s, r)
          | 'r' => some ('\r' :: s, r)
          | _ => none
      | none => none
  | c :: rest =>
      match parseJsonString rest with
      | some (s, r) => some (c :: s, r)
      | none => none

/-- Consume a run of decimal digits, accumulating their value. -/
def parseNatAcc : List Char → Nat → Nat × List Char
  | c :: rest, acc =>
      if '0' ≤ c ∧ c ≤ '9' then parseNatAcc rest (acc * 10 + (c.toNat - 48))
      else (acc, c :: rest)
  | [], acc => (acc, [])

/-- Parse one scalar JSON value. -/
def parseJsonValue : List Char → Option (JSVal × List Char)
  | '"' :: rest =>
      (parseJsonString rest).map (fun p => (JSVal.str (String.mk p.1), p.2))
  | 't' :: 'r' :: 'u' :: 'e' :: rest => some (JSVal.bool true, rest)
  | 'f' :: 'a' :: 'l' :: 's' :: 'e' :: rest => some (JSVal.bool false, rest)
  | 'n' :: 'u' :: 'l' :: 'l' :: rest => some (JSVal.null, rest)
  | '-' :: c :: rest =>
      if '0' ≤ c ∧ c ≤ '9' then
        let p := parseNatAcc (c :: rest) 0
        some (JSVal.num (-(p.1 : Int)), p.2)
      else none
  | c :: rest =>
      if '0' ≤ c ∧ c ≤ '9' then
        let p := parseNatAcc (c :: rest) 0
        some (JSVal.num (p.1 : Int), p.2)
      else none
  | [] => none

/-- Parse the members of a JSON object after its opening brace, ending at
the closing brace.  `fuel` bounds the recursion by the input length. -/
def parseJsonMembers : Nat → List Char → List (String × JSVal) →
    Option (List (String × JSVal) × List Char)
  | 0, _, _ => none
  | fuel + 1, input, acc =>
      match skipWs input with
      | '"' :: rest =>
          match parseJsonString rest with
          | some (k, r1) =>
              match skipWs r1 with
              | ':' :: r2 =>
                  match parseJsonValue (skipWs r2) with
                  | some (v, r3) =>
                      let acc' := setKey acc (String.mk k) v
                      match skipWs r3 with
                      | ',' :: r4 => parseJsonMembers fuel r4 acc'
                      | '\x7d' :: r4 => some (acc', r4)
                      | _ => none
                  | none => none
              | _ => none
          | none => none
      | _ => none

/-- `JSON.parse` on the flat-object fragment: a top-level object whose
values are scalars.  Anything else is `none` (the exception path). -/
def jsonParseObj (body : String) : Option (List (String × JSVal)) :=
  match skipWs body.data with
  | '\x7b' :: rest =>
      match skipWs rest with
      | '\x7d' :: r => if skipWs r = [] then some [] else none
      | _ =>
          match parseJsonMembers (body.length + 1) rest [] with
          | some (obj, r) => if skipWs r = [] then some obj else none
          | none => none
  | _ => none

/-- `JSON.stringify` escaping of one character (fragment used here). -/
def escapeJsonChar (c : Char) : List Char :=
  if c = '"' then ['\\', '"']
  else if c = '\\' then ['\\', '\\']
  else if c = '\n' then ['\\', 'n']
  else if c = '\t' then ['\\', 't']
  else if c = '\r' then ['\\', 'r']
  else [c]

/-- Quote and escape a string as `JSON.stringify` renders it. -/
def quoteJson (s : String) : String :=
  String.mk ('"' :: (s.data.map escapeJsonChar).flatten ++ ['"'])

/-- `JSON.stringify` of one scalar value. -/
def jsonStringifyVal : JSVal → String
  | JSVal.str s => quoteJson s
  | JSVal.bool true => "true"
  | JSVal.bool false => "false"
  | JSVal.num n => toString n
  | JSVal.null => "null"

/-- `JSON.stringify` of a flat object. -/
def jsonStringifyObj (obj : List (String × JSVal)) : String :=
  "\x7b" ++
    String.intercalate ","
      (obj.map (fun p => quoteJson p.1 ++ ":" ++ jsonStringifyVal p.2)) ++
  "\x7d"

/-- `getSubmission`: DynamoDB GetItem by key. -/
def getSubmission (store : List Submission) (submissionId : String) :
    Option Submission :=
  store.find? (fun r => r.submissionId == submissionId)

/-- `updateSubmissionStatus`: the UpdateItem call of the webhook handler,
setting `status`, `webhookData` (the `JSON.stringify` of the parsed
payload) and `updatedAt` on the record with the given key, unconditionally.
The handler only reaches it after `getSubmission` succeeded, so the
upsert-on-missing-key behaviour of UpdateItem is never exercised. -/
def updateSubmissionStatus (store : List Submission)
    (submissionId status webhookDataStr nowIso : String) : List Submission :=
  store.map (fun r =>
    if r.submissionId = submissionId then
      { r with
        status := status,
        webhookData := some webhookDataStr,
        updatedAt := some nowIso }
    else r)

/-- The outcome collapse of the webhook handler:
`VerificationStatus === 'True' || VerificationStatus === true` maps to
approved, anything else to failed. -/
def outcomeOf (webhookData : List (String × JSVal)) : String :=
  if objGet webhookData "VerificationStatus" = some (JSVal.str "True") ∨
     objGet webhookData "VerificationStatus" = some (JSVal.bool true) then
    "approved"
  else
    "failed"

/-- Result of one webhook-handler invocation, keyed to the HTTP responses
the handler can produce on the POST-with-body path. -/
inductive ReceiveOutcome where
  | badRequest
  | notFound
  | ok (submissionId status : String)
  | serverError
deriving Repr, DecidableEq

/-- The webhook handler after body parsing (`receive()` in the spec):
extract `CustomData`, look the submission up, collapse the outcome, write.
A falsy `CustomData` yields the 400 response; a truthy non-string one makes
the DynamoDB GetItem marshalling throw, caught as the 500 response; both
leave the store untouched. -/
def webhookCore (nowIso : String) (webhookData : List (String × JSVal))
    (store : List Submission) : ReceiveOutcome × List Submission :=
  match objGet webhookData "CustomData" with
  | some (JSVal.str s) =>
      if s = "" then (ReceiveOutcome.badRequest, store)
      else
        match getSubmission store s with
        | none => (ReceiveOutcome.notFound, store)
        | some _ =>
            let status := outcomeOf webhookData
            (ReceiveOutcome.ok s status,
             updateSubmissionStatus store s status
               (jsonStringifyObj webhookData) nowIso)
  | some (JSVal.bool true) => (ReceiveOutcome.serverError, store)
  | some (JSVal.bool false) => (ReceiveOutcome.badRequest, store)
  | some (JSVal.num n) =>
      if n = 0 then (ReceiveOutcome.badRequest, store)
      else (ReceiveOutcome.serverError, store)
  | some JSVal.null => (ReceiveOutcome.badRequest, store)
  | none => (ReceiveOutcome.badRequest, store)

/-- Body parsing of the webhook handler: `JSON.parse` first, URL-encoded
form fallback on exception. -/
def parseWebhookBody (body : String) : List (String × JSVal) :=
  match jsonParseObj body with
  | some o => o
  | none => formParse body

/-- The full webhook handler on the POST-with-body path. -/
def webhookReceive (nowIso : String) (body : String)
    (store : List Submission) : ReceiveOutcome × List Submission :=
  webhookCore nowIso (parseWebhookBody body) store

/-! ## Export Encoder (daily-export Lambda) -/

/-- JS `String.prototype.padStart(n, c)` on a char-list representation:
pad on the left up to length `n`; a string already at least `n` long is
returned unchanged. -/
def padStart (s : List Char) (n : Nat) (c : Char) : List Char :=
  List.replicate (n - s.length) c ++ s

/-- JS `String.prototype.padEnd(n, c)`: pad on the right up to length `n`. -/
def padEnd (s : List Char) (n : Nat) (c : Char) : List Char :=
  s ++ List.replicate (n - s.length) c

/-- The export selection predicate, as in the DynamoDB filter expression of
`getApprovedRecords`: `status = "approved" AND exported = false`. -/
def eligible (r : Submission) : Prop :=
  r.status = "approved" ∧ r.exported = false

instance (r : Submission) : Decidable (eligible r) := by
  unfold eligible
  infer_instance

/-- `getApprovedRecords`: the DynamoDB scan with filter expression
`status = "approved" AND exported = false`. -/
def getApprovedRecords (store : List Submission) : List Submission :=
  store.filter (fun r => eligible r)

/-- `recordToFixedWidth`: serialize one record to the 606-column fixed-width
layout.  `jsDate` models the JS builtin pipeline
`s => new Date(s).toISOString().slice(0, 10)` with the dashes stripped
(the claim's "parseable submissionDate" hypothesis is reflected by `jsDate`
being a total function).  The final guard reproduces the source's
truncate-and-re-pad fallback when the length is not exactly 606. -/
def recordToFixedWidth (jsDate : String → String) (record : Submission) :
    List Char :=
  let customerNumber := record.customerNumber.data
  let email := record.email.data
  let formattedDate := (jsDate record.submissionDate).data
  let specialField :=
    "AR_40_DDI_".data ++ formattedDate ++ " ##".data ++ email ++ "## ".data
  let fixedWidthRecord :=
    padStart ['2'] 2 ' '
    ++ padStart customerNumber 25 ' '
    ++ "    ".data
    ++ padStart "1234567890123456789012345".data 35 ' '
    ++ List.replicate 126 ' '
    ++ padEnd specialField 255 ' '
    ++ List.replicate 82 ' '
    ++ "DD".data
    ++ List.replicate 28 ' '
    ++ ['W']
    ++ List.replicate 46 ' '
  if fixedWidthRecord.length ≠ 606 then
    padEnd (fixedWidthRecord.take 606) 606 ' '
  else
    fixedWidthRecord

/-- `markRecordsAsExported`: one `UpdateItemCommand` per id, setting
`exported = true` and `exportedAt`.  Updating by key touches exactly the
records whose `submissionId` is listed. -/
def markRecordsAsExported (store : List Submission) (submissionIds : List String)
    (exportedAtIso : String) : List Submission :=
  store.map (fun r =>
    if r.submissionId ∈ submissionIds then
      { r with exported := true, exportedAt := some exportedAtIso }
    else r)

/-- Result of one run of the daily-export Lambda handler. -/
inductive ExportResult where
  | noRecords
  | exported (recordsExported : Nat) (fileName : String) (fileSize : Nat)
  | failed
deriving Repr, DecidableEq

/-- The daily-export Lambda handler (`runExport` in the spec): scan for
approved+unexported records, serialize, upload, then mark exported.
`uploadOk` is the outcome of the S3 `PutObjectCommand`; when it is `false`
the upload throws, the catch block returns the 500 result and
`markRecordsAsExported` is never reached. -/
def runExport (jsDate : String → String) (uploadOk : Bool)
    (today nowIso : String) (store : List Submission) :
    ExportResult × List Submission :=
  let records := getApprovedRecords store
  if records.length = 0 then
    (ExportResult.noRecords, store)
  else
    let fixedWidthLines := records.map (recordToFixedWidth jsDate)
    let fileContent := String.intercalate "\n" (fixedWidthLines.map String.mk)
    let fileName := "DIRECT_DEBIT_EXPORT_" ++ today ++ ".txt"
    if uploadOk then
      let submissionIds := records.map (fun r => r.submissionId)
      (ExportResult.exported records.length fileName fileContent.length,
       markRecordsAsExported store submissionIds nowIso)
    else
      (ExportResult.failed, store)

/-! ## Crypto Codec (encryptQueryString of the handoff Lambda)

`crypto.createHash('sha256')` and the AES-256 block cipher inside
`crypto.createCipheriv('aes-256-cbc', ...)` are external library
primitives; they enter the embedding as the parameters `sha256`, `aesEnc`
and `aesDec`, constrained only where a theorem needs the inverse or
length/byte-range properties every block cipher has.  What the
repository's code itself contributes — key derivation by hashing the
secret, the fresh 16-byte IV, CBC chaining with PKCS#7 padding
(`cipher.update` plus `cipher.final`), and base64 encoding of
IV ++ ciphertext — is embedded concretely over byte lists (`List Nat`,
elements below 256). -/

/-- Byte-wise xor of two equal-length byte lists. -/
def xorBytes (a b : List Nat) : List Nat :=
  List.zipWith (fun x y => x ^^^ y) a b

/-- Split a byte list into consecutive 16-byte blocks (a trailing partial
chunk, which never occurs on the padded inputs used here, is kept whole). -/
def toBlocks : List Nat → List (List Nat)
  | [] => []
  | b1 :: b2 :: b3 :: b4 :: b5 :: b6 :: b7 :: b8 :: b9 :: b10 :: b11 ::
      b12 :: b13 :: b14 :: b15 :: b16 :: rest =>
      [b1, b2, b3, b4, b5, b6, b7, b8, b9, b10, b11, b12, b13, b14, b15,
       b16] :: toBlocks rest
  | l => [l]

/-- Concatenate blocks back into a byte list. -/
def fromBlocks (blocks : List (List Nat)) : List Nat := blocks.flatten

/-- PKCS#7 padding to a multiple of 16 bytes, as `cipher.final` applies
for aes-256-cbc: append k copies of k, k between 1 and 16. -/
def pkcs7pad (m : List Nat) : List Nat :=
  m ++ List.replicate (16 - m.length % 16) (16 - m.length % 16)

/-- PKCS#7 unpadding with validity check, as the receiving decipher
applies it. -/
def pkcs7unpad (l : List Nat) : Option (List Nat) :=
  match l.getLast? with
  | none => none
  | some k =>
      if 1 ≤ k ∧ k ≤ 16 ∧ k ≤ l.length ∧
          (l.drop (l.length - k)).all (fun x => x == k) then
        some (l.take (l.length - k))
      else none

/-- CBC encryption of a block sequence: each plaintext block is xored with
the previous ciphertext block (the IV at the start) before the block
cipher is applied. -/
def cbcEncBlocks (enc : List Nat → List Nat) :
    List Nat → List (List Nat) → List (List Nat)
  | _, [] => []
  | prev, b :: bs =>
      let c := enc (xorBytes prev b)
      c :: cbcEncBlocks enc c bs

/-- CBC decryption of a block sequence. -/
def cbcDecBlocks (dec : List Nat → List Nat) :
    List Nat → List (List Nat) → List (List Nat)
  | _, [] => []
  | prev, c :: cs => xorBytes prev (dec c) :: cbcDecBlocks dec c cs

/-- The base64 alphabet in index order. -/
def b64Alphabet : List Char :=
  "ABCDEFGHIJKLMNOPQRSTUVWXYZabcdefghijklmnopqrstuvwxyz0123456789+/".data

/-- Character of a six-bit value. -/
def b64Char (v : Nat) : Char := b64Alphabet.getD v 'A'

/-- Six-bit value of a base64 character. -/
def b64Val (c : Char) : Option Nat :=
  if decide ('A' ≤ c) && decide (c ≤ 'Z') then some (c.toNat - 65)
  else if decide ('a' ≤ c) && decide (c ≤ 'z') then some (c.toNat - 71)
  else if c.isDigit then some (c.toNat + 4)
  else if c == '+' then some 62
  else if c == '/' then some 63
  else none

/-- Standard base64 encoding of a byte list (with `=` padding), as
`Buffer.prototype.toString('base64')` produces it. -/
def base64encode : List Nat → List Char
  | [] => []
  | [b1] => [b64Char (b1 / 4), b64Char (b1 % 4 * 16), '=', '=']
  | [b1, b2] =>
      [b64Char (b1 / 4), b64Char (b1 % 4 * 16 + b2 / 16),
       b64Char (b2 % 16 * 4), '=']
  | b1 :: b2 :: b3 :: rest =>
      b64Char (b1 / 4) :: b64Char (b1 % 4 * 16 + b2 / 16) ::
      b64Char (b2 % 16 * 4 + b3 / 64) :: b64Char (b3 % 64) ::
      base64encode rest

/-- Base64 decoding (strict: `=` only as final padding). -/
def base64decode : List Char → Option (List Nat)
  | [] => some []
  | c1 :: c2 :: c3 :: c4 :: rest =>
      match b64Val c1, b64Val c2 with
      | some v1, some v2 =>
          if c3 = '=' then
            if c4 = '=' ∧ rest = [] then some [v1 * 4 + v2 / 16] else none
          else
            match b64Val c3 with
            | some v3 =>
                if c4 = '=' then
                  if rest = [] then
                    some [v1 * 4 + v2 / 16, v2 % 16 * 16 + v3 / 4]
                  else none
                else
                  match b64Val c4, base64decode rest with
                  | some v4, some tail =>
                      some ((v1 * 4 + v2 / 16) :: (v2 % 16 * 16 + v3 / 4) ::
                            (v3 % 4 * 64 + v4) :: tail)
                  | _, _ => none
            | none => none
      | _, _ => none
  | _ => none

/-- `encryptQueryString`: SHA-256 the shared secret into the AES key
(`sha256 sharedSecret`), take the fresh random 16-byte IV (the `iv`
parameter, `crypto.randomBytes(16)`), AES-256-CBC encrypt the plaintext
bytes with PKCS#7 padding, and base64-encode IV ++ ciphertext.
`queryString` is the plaintext's UTF-8 byte sequence.  The code has no
error path: any secret, the empty string included, is hashed into a key
and used. -/
def encryptQueryString (sha256 : String → List Nat)
    (aesEnc : List Nat → List Nat → List Nat) (iv : List Nat)
    (queryString : List Nat) (sharedSecret : String) : String :=
  let aesKey := sha256 sharedSecret
  let cipherText :=
    fromBlocks (cbcEncBlocks (aesEnc aesKey) iv
      (toBlocks (pkcs7pad queryString)))
  String.mk (base64encode (iv ++ cipherText))

/-- Modelled from the spec: the external verification service's decryption
of an `eData` blob — the repository itself holds no decrypt routine.  Per
the spec's output encoding, base64-decode, split off the clear 16-byte IV
prefix, CBC-decrypt the remainder under the SHA-256-derived key, strip the
PKCS#7 padding. -/
def decryptQueryString (sha256 : String → List Nat)
    (aesDec : List Nat → List Nat → List Nat) (data : String)
    (sharedSecret : String) : Option (List Nat) :=
  match base64decode data.data with
  | none => none
  | some bytes =>
      let iv := bytes.take 16
      let ct := bytes.drop 16
      let padded :=
        fromBlocks (cbcDecBlocks (aesDec (sha256 sharedSecret)) iv
          (toBlocks ct))
      pkcs7unpad padded

/-- A sample pending submission, as `storeSubmissionData` would create it. -/
def subPending : Submission :=
  { submissionId := "s-pending", customerNumber := "10001234567",
    postcode := "AB1 2CD", email := "a@b.com", formType := "advisor",
    service := "council-a", submissionDate := "2025-01-01T00:00:00.000Z",
    status := "pending", exported := false }

/-- A sample approved, not-yet-exported submission. -/
def subApproved : Submission :=
  { subPending with submissionId := "s-approved", status := "approved" }

/-- A sample approved submission that was already exported. -/
def subExported : Submission :=
  { subPending with
    submissionId := "s-exported",
    status := "approved",
    exported := true,
    exportedAt := some "2025-01-02T00:00:00.000Z" }

/-- A three-record store exercising all three export-relevant states. -/
def sampleStore : List Submission := [subPending, subApproved, subExported]

/-- A pending submission under the correlation token "abc". -/
def subPendingAbc : Submission := { subPending with submissionId := "abc" }

/-- An already-approved (terminal) submission under the token "abc". -/
def subApprovedAbc : Submission := { subApproved with submissionId := "abc" }

/-- A store holding one terminal (approved) submission. -/
def terminalStore : List Submission := [subApprovedAbc]

/-- A store holding one pending submission. -/
def pendingStoreAbc : List Submission := [subPendingAbc]

end DirectDebit

namespace DirectDebit

theorem padEnd_length (s : List Char) (n : Nat) (c : Char) :
    (padEnd s n c).length = max s.length n := by
  simp [padEnd]
  omega

theorem padStart_length (s : List Char) (n : Nat) (c : Char) :
    (padStart s n c).length = max s.length n := by
  simp [padStart]
  omega

/-- C4: every serialized export record is exactly 606 characters long, for
every customer number, email and (parseable) submission date; overruns are
truncated and re-padded to 606 rather than emitted at another length. -/
theorem recordToFixedWidth_length (jsDate : String → String)
    (record : Submission) :
    (recordToFixedWidth jsDate record).length = 606 := by
  simp only [recordToFixedWidth]
  split
  · rw [padEnd_length, List.length_take]
    omega
  · omega

theorem eligible_of_mem_getApprovedRecords {store : List Submission}
    {r : Submission} (h : r ∈ getApprovedRecords store) :
    r ∈ store ∧ eligible r := by
  unfold getApprovedRecords at h
  rw [List.mem_filter] at h
  exact ⟨h.1, by simpa using h.2⟩

theorem mem_getApprovedRecords_of {store : List Submission} {r : Submission}
    (hmem : r ∈ store) (helig : eligible r) :
    r ∈ getApprovedRecords store := by
  unfold getApprovedRecords
  rw [List.mem_filter]
  exact ⟨hmem, by simpa using helig⟩

/-- C2: with unique keys (a DynamoDB table invariant), a successful
`runExport` run turns exactly the approved-and-unexported records into
exported ones (stamping `exportedAt`) and leaves every other record
untouched, field for field. -/
theorem runExport_selection_frame (jsDate : String → String)
    (today nowIso : String) (store : List Submission)
    (hkeys : (store.map (fun r => r.submissionId)).Nodup) :
    (runExport jsDate true today nowIso store).2 =
      store.map (fun r =>
        if eligible r then
          { r with exported := true, exportedAt := some nowIso }
        else r) := by
  unfold runExport
  by_cases hempty : (getApprovedRecords store).length = 0
  · have hnil : getApprovedRecords store = [] := List.length_eq_zero.mp hempty
    have hnone : ∀ r ∈ store, ¬ eligible r := by
      intro r hr hcontra
      have : r ∈ getApprovedRecords store := mem_getApprovedRecords_of hr hcontra
      rw [hnil] at this
      exact absurd this (List.not_mem_nil r)
    have : store.map (fun r =>
        if eligible r then
          { r with exported := true, exportedAt := some nowIso }
        else r) = store.map id := by
      apply List.map_congr_left
      intro r hr
      rw [if_neg (hnone r hr)]
      rfl
    simp [hempty, this]
  · simp only [hempty, markRecordsAsExported, if_false, if_true]
    apply List.map_congr_left
    intro r hr
    by_cases hp : eligible r
    · rw [if_pos hp, if_pos ?side]
      case side =>
        exact List.mem_map.mpr ⟨r, mem_getApprovedRecords_of hr hp, rfl⟩
    · rw [if_neg hp, if_neg ?side]
      case side =>
        intro hin
        rcases List.mem_map.mp hin with ⟨r', hr', hid⟩
        rcases eligible_of_mem_getApprovedRecords hr' with ⟨hr'mem, hr'elig⟩
        have : r' = r := List.inj_on_of_nodup_map hkeys hr'mem hr hid
        exact hp (this ▸ hr'elig)

/-- Witness for C2 at a concrete three-record store. -/
theorem runExport_selection_frame_witness :
    ((sampleStore.map (fun r => r.submissionId)).Nodup) ∧
    (runExport (fun _ => "20250101") true "20250101" "2025-01-03T00:00:00.000Z"
        sampleStore).2 =
      sampleStore.map (fun r =>
        if eligible r then
          { r with exported := true,
                   exportedAt := some "2025-01-03T00:00:00.000Z" }
        else r) :=
  ⟨by decide,
   runExport_selection_frame (fun _ => "20250101") "20250101"
     "2025-01-03T00:00:00.000Z" sampleStore (by decide)⟩

/-- Counterexample to C7: the postcode "A B C" sanitizes to itself —
length 5 but only 3 non-space characters — and the build nevertheless
succeeds and creates a submission, where the claim requires a postcode
ValidationError before any submission is created. -/
theorem postcode_spaces_counted_cex :
    ((buildHandler (fun _ => "") "id1" "2025-01-01T00:00:00.000Z"
        "https://cb" (some "10001234567") (some "A B C") (some "a@b.com")
        none none).2.map (fun s => s.postcode)) = some "A B C" ∧
    ((("A B C".data.filter isPostcodeChar).take 10).filter
      (fun c => !jsSpaceB c)).length = 3 :=
  ⟨by decide, by decide⟩

/-- C7 (amended): with the required parameters present and a customer
number passing its pattern, the build fails with the postcode validation
error (creating no submission) exactly when the sanitized, truncated
postcode has total length below 5 — spaces count towards the 5, so a
postcode with 5 sanitized characters of which fewer than 5 are non-space
is accepted. -/
theorem postcode_rejected_iff_sanitized_short (encryptFn : String → String)
    (submissionId submissionDate callbackURL : String)
    (cn pc em : String) (formType requestedService : Option String)
    (hcn : cn ≠ "") (hpc : pc ≠ "") (hem : em ≠ "")
    (hcnvalid : customerNumberTest (cn.data.filter Char.isDigit) = true) :
    buildHandler encryptFn submissionId submissionDate callbackURL
        (some cn) (some pc) (some em) formType requestedService =
      (BuildResponse.serverError "Invalid postcode format", none) ↔
    (((pc.data.map Char.toUpper).filter isPostcodeChar).take 10).length
      < 5 := by
  have hfcn : falsy (some cn) = false := by simp [falsy, hcn]
  have hfpc : falsy (some pc) = false := by simp [falsy, hpc]
  have hfem : falsy (some em) = false := by simp [falsy, hem]
  simp only [buildHandler, validateAndSanitizeInput, hfcn, hfpc, hfem,
    Bool.or_self, Bool.or_false, Bool.false_or, Bool.false_eq_true,
    if_false, Option.getD_some, hcnvalid, not_true, String.data]
  by_cases hlen :
      (((pc.data.map Char.toUpper).filter isPostcodeChar).take 10).length < 5
  · rw [if_pos hlen]
    exact iff_of_true rfl hlen
  · rw [if_neg hlen]
    by_cases hmail : emailOk em
    · rw [if_neg (by simp [hmail])]
      dsimp only
      have hcv := hcnvalid
      simp only [customerNumberTest, Bool.and_eq_true, Bool.or_eq_true,
        decide_eq_true_eq] at hcv
      obtain ⟨⟨hlen11, hpre⟩, hdig⟩ := hcv
      rcases hpre with hp | hp
      · have hsvc2 : determineServiceFromCustomerNumber
            (String.mk (cn.data.filter Char.isDigit)) =
              Except.ok "council-a" := by
          simp +decide [determineServiceFromCustomerNumber, hp]
        rw [hsvc2]
        dsimp only
        split
        · exact iff_of_false (by simp) hlen
        · exact iff_of_false (by simp) hlen
      · have hsvc2 : determineServiceFromCustomerNumber
            (String.mk (cn.data.filter Char.isDigit)) =
              Except.ok "council-b" := by
          simp +decide [determineServiceFromCustomerNumber, hp]
        rw [hsvc2]
        dsimp only
        split
        · exact iff_of_false (by simp) hlen
        · exact iff_of_false (by simp) hlen
    · rw [if_pos (by simp [hmail])]
      exact iff_of_false (by simp) hlen

/-- Witness for the amended C7: the postcode "AB1" sanitizes to 3
characters, so the build fails with the postcode error. -/
theorem postcode_rejected_iff_sanitized_short_witness :
    "10001234567" ≠ "" ∧ "AB1" ≠ "" ∧ "a@b.com" ≠ "" ∧
    customerNumberTest ("10001234567".data.filter Char.isDigit) = true ∧
    (buildHandler (fun _ => "") "id1" "2025-01-01T00:00:00.000Z"
        "https://cb" (some "10001234567") (some "AB1") (some "a@b.com")
        none none =
      (BuildResponse.serverError "Invalid postcode format", none) ↔
    ((("AB1".data.map Char.toUpper).filter isPostcodeChar).take 10).length
      < 5) :=
  ⟨by decide, by decide, by decide, by decide,
   postcode_rejected_iff_sanitized_short (fun _ => "") "id1"
     "2025-01-01T00:00:00.000Z" "https://cb" "10001234567" "AB1" "a@b.com"
     none none (by decide) (by decide) (by decide) (by decide)⟩

/-- Counterexample to C10: the supplied form variant "" (parameter present
but empty) selects the advisor endpoint but is not echoed back or stored —
the stored and echoed value is "advisor", not the supplied "". -/
theorem formtype_empty_advisor_cex :
    ((buildHandler (fun _ => "") "id1" "2025-01-01T00:00:00.000Z"
        "https://cb" (some "10001234567") (some "AB1 2CD") (some "a@b.com")
        (some "") none).2.map (fun s => s.formType)) = some "advisor" ∧
    respFormType (buildHandler (fun _ => "") "id1"
        "2025-01-01T00:00:00.000Z" "https://cb" (some "10001234567")
        (some "AB1 2CD") (some "a@b.com") (some "") none).1 =
      some "advisor" ∧
    "advisor" ≠ "" :=
  ⟨by decide, by decide, by decide⟩

/-- C10 (amended): on an otherwise-valid request the build always succeeds
whatever the supplied form variant (none is rejected); the endpoint AND
the field set of the outbound query string are the user-variant ones
exactly when the variant is the exact string "user" (see `baseUrlFor` and
`queryStringFor`), every other value getting the advisor ("agent")
endpoint and the advisor field set; the echoed and stored form type is the
supplied value when it is non-empty and "advisor" when it is absent or
empty. -/
theorem formtype_dispatch (encryptFn : String → String)
    (submissionId submissionDate callbackURL : String)
    (cn pc em : String) (formType requestedService : Option String)
    (cnS pcS : String) (service : String)
    (hcn : cn ≠ "") (hpc : pc ≠ "") (hem : em ≠ "")
    (hval : validateAndSanitizeInput cn
        (String.mk (pc.data.map Char.toUpper)) em = Except.ok (cnS, pcS, em))
    (hsvc : determineServiceFromCustomerNumber cnS = Except.ok service)
    (hreq : match requestedService with
            | some rs => rs = "" ∨ rs = service
            | none => True) :
    respBaseUrl (buildHandler encryptFn submissionId submissionDate
        callbackURL (some cn) (some pc) (some em) formType
        requestedService).1 = some (baseUrlFor formType service) ∧
    respQueryString (buildHandler encryptFn submissionId submissionDate
        callbackURL (some cn) (some pc) (some em) formType
        requestedService).1 =
      some (queryStringFor formType cnS pcS em submissionId callbackURL) ∧
    respFormType (buildHandler encryptFn submissionId submissionDate
        callbackURL (some cn) (some pc) (some em) formType
        requestedService).1 = some (jsOr formType "advisor") ∧
    ((buildHandler encryptFn submissionId submissionDate callbackURL
        (some cn) (some pc) (some em) formType requestedService).2.map
      (fun s => s.formType)) = some (jsOr formType "advisor") := by
  have hfcn : falsy (some cn) = false := by simp [falsy, hcn]
  have hfpc : falsy (some pc) = false := by simp [falsy, hpc]
  have hfem : falsy (some em) = false := by simp [falsy, hem]
  simp only [buildHandler, hfcn, hfpc, hfem, Bool.or_self, Bool.or_false,
    Bool.false_or, Bool.false_eq_true, if_false, Option.getD_some, hval]
  rw [hsvc]
  dsimp only
  cases requestedService with
  | none =>
      simp [respBaseUrl, respQueryString, respFormType, queryStringFor,
        baseCustomerDataFor, userFieldSuffix, advisorFieldSuffix]
  | some rs =>
      rcases hreq with h | h <;>
        simp [h, respBaseUrl, respQueryString, respFormType, queryStringFor,
          baseCustomerDataFor, userFieldSuffix, advisorFieldSuffix]

/-- Witness for the amended C10 with the out-of-vocabulary form variant
"banana": advisor endpoint and advisor field set, the supplied value
echoed and stored. -/
theorem formtype_dispatch_witness :
    "10001234567" ≠ "" ∧ "AB1 2CD" ≠ "" ∧ "a@b.com" ≠ "" ∧
    validateAndSanitizeInput "10001234567"
        (String.mk ("AB1 2CD".data.map Char.toUpper)) "a@b.com" =
      Except.ok ("10001234567", "AB1 2CD", "a@b.com") ∧
    determineServiceFromCustomerNumber "10001234567" =
      Except.ok "council-a" ∧
    (respBaseUrl (buildHandler (fun _ => "") "id1"
        "2025-01-01T00:00:00.000Z" "https://cb" (some "10001234567")
        (some "AB1 2CD") (some "a@b.com") (some "banana") none).1 =
      some (baseUrlFor (some "banana") "council-a") ∧
    respQueryString (buildHandler (fun _ => "") "id1"
        "2025-01-01T00:00:00.000Z" "https://cb" (some "10001234567")
        (some "AB1 2CD") (some "a@b.com") (some "banana") none).1 =
      some (queryStringFor (some "banana") "10001234567" "AB1 2CD"
        "a@b.com" "id1" "https://cb") ∧
    respFormType (buildHandler (fun _ => "") "id1"
        "2025-01-01T00:00:00.000Z" "https://cb" (some "10001234567")
        (some "AB1 2CD") (some "a@b.com") (some "banana") none).1 =
      some (jsOr (some "banana") "advisor") ∧
    ((buildHandler (fun _ => "") "id1" "2025-01-01T00:00:00.000Z"
        "https://cb" (some "10001234567") (some "AB1 2CD") (some "a@b.com")
        (some "banana") none).2.map (fun s => s.formType)) =
      some (jsOr (some "banana") "advisor")) :=
  ⟨by decide, by decide, by decide, rfl, rfl,
   formtype_dispatch (fun _ => "") "id1" "2025-01-01T00:00:00.000Z"
     "https://cb" "10001234567" "AB1 2CD" "a@b.com" (some "banana") none
     "10001234567" "AB1 2CD" "council-a" (by decide) (by decide)
     (by decide) rfl rfl trivial⟩

/-- Reduction of the webhook handler when the payload carries a non-empty
string correlation token of a known submission: it always answers ok with
the collapsed outcome and rewrites the record unconditionally. -/
theorem webhookCore_known (nowIso : String)
    (webhookData : List (String × JSVal)) (store : List Submission)
    (id : String) (s : Submission)
    (hid : objGet webhookData "CustomData" = some (JSVal.str id))
    (hne : id ≠ "") (hfound : getSubmission store id = some s) :
    webhookCore nowIso webhookData store =
      (ReceiveOutcome.ok id (outcomeOf webhookData),
       updateSubmissionStatus store id (outcomeOf webhookData)
         (jsonStringifyObj webhookData) nowIso) := by
  unfold webhookCore
  rw [hid]
  dsimp only
  rw [if_neg hne, hfound]

/-- Any record of the post-write store that carries the updated key has the
written status. -/
theorem updateSubmissionStatus_status (store : List Submission)
    (id status webhookDataStr nowIso : String) :
    ∀ r ∈ updateSubmissionStatus store id status webhookDataStr nowIso,
      r.submissionId = id → r.status = status := by
  intro r hr hrid
  unfold updateSubmissionStatus at hr
  rcases List.mem_map.mp hr with ⟨r0, hr0, rfl⟩
  by_cases h0 : r0.submissionId = id
  · rw [if_pos h0]
  · rw [if_neg h0] at hrid ⊢
    exact absurd hrid h0

/-- Counterexample to C1: the store holds a terminal (approved) submission
"abc"; a callback for the same token with the opposite outcome is answered
with 200/ok and the stored status is overwritten to "failed" — there is no
ConflictError and the status does not stay unchanged. -/
theorem receive_conflict_cex :
    (webhookReceive "2025-01-04T00:00:00.000Z"
        "CustomData=abc&VerificationStatus=False" terminalStore).1 =
      ReceiveOutcome.ok "abc" "failed" ∧
    ((webhookReceive "2025-01-04T00:00:00.000Z"
        "CustomData=abc&VerificationStatus=False" terminalStore).2.map
      (fun r => r.status)) = ["failed"] :=
  ⟨by decide, by decide⟩

/-- C1 (amended): the webhook handler's status write is unconditional — for
an already-terminal submission, a repeated callback with the same outcome
rewrites the record (status unchanged in value) and returns that status,
and a callback with a different outcome silently overwrites the stored
status with the new outcome and returns it; no ConflictError exists. -/
theorem receive_terminal_overwrite (nowIso : String)
    (webhookData : List (String × JSVal)) (store : List Submission)
    (id : String) (s : Submission)
    (hid : objGet webhookData "CustomData" = some (JSVal.str id))
    (hne : id ≠ "") (hfound : getSubmission store id = some s)
    (_hterm : s.status = "approved" ∨ s.status = "failed") :
    (webhookCore nowIso webhookData store).1 =
      ReceiveOutcome.ok id (outcomeOf webhookData) ∧
    (webhookCore nowIso webhookData store).2 =
      updateSubmissionStatus store id (outcomeOf webhookData)
        (jsonStringifyObj webhookData) nowIso ∧
    ∀ r ∈ (webhookCore nowIso webhookData store).2,
      r.submissionId = id → r.status = outcomeOf webhookData := by
  rw [webhookCore_known nowIso webhookData store id s hid hne hfound]
  exact ⟨rfl, rfl,
    updateSubmissionStatus_status store id (outcomeOf webhookData)
      (jsonStringifyObj webhookData) nowIso⟩

/-- Witness for the amended C1 at a concrete terminal store and a
different-outcome callback payload. -/
theorem receive_terminal_overwrite_witness :
    objGet [("CustomData", JSVal.str "abc"),
            ("VerificationStatus", JSVal.str "False")] "CustomData" =
      some (JSVal.str "abc") ∧
    "abc" ≠ "" ∧
    getSubmission terminalStore "abc" = some subApprovedAbc ∧
    (subApprovedAbc.status = "approved" ∨ subApprovedAbc.status = "failed") ∧
    ((webhookCore "2025-01-04T00:00:00.000Z"
        [("CustomData", JSVal.str "abc"),
         ("VerificationStatus", JSVal.str "False")] terminalStore).1 =
      ReceiveOutcome.ok "abc"
        (outcomeOf [("CustomData", JSVal.str "abc"),
                    ("VerificationStatus", JSVal.str "False")]) ∧
    (webhookCore "2025-01-04T00:00:00.000Z"
        [("CustomData", JSVal.str "abc"),
         ("VerificationStatus", JSVal.str "False")] terminalStore).2 =
      updateSubmissionStatus terminalStore "abc"
        (outcomeOf [("CustomData", JSVal.str "abc"),
                    ("VerificationStatus", JSVal.str "False")])
        (jsonStringifyObj [("CustomData", JSVal.str "abc"),
                           ("VerificationStatus", JSVal.str "False")])
        "2025-01-04T00:00:00.000Z" ∧
    ∀ r ∈ (webhookCore "2025-01-04T00:00:00.000Z"
        [("CustomData", JSVal.str "abc"),
         ("VerificationStatus", JSVal.str "False")] terminalStore).2,
      r.submissionId = "abc" →
        r.status = outcomeOf [("CustomData", JSVal.str "abc"),
                              ("VerificationStatus", JSVal.str "False")]) :=
  ⟨by decide, by decide, by decide, by decide,
   receive_terminal_overwrite "2025-01-04T00:00:00.000Z"
     [("CustomData", JSVal.str "abc"),
      ("VerificationStatus", JSVal.str "False")] terminalStore "abc"
     subApprovedAbc (by decide) (by decide) (by decide) (by decide)⟩

/-- Counterexample to C6: a callback whose verification-status field is the
lowercase string "true" for a known pending submission yields status
"failed", not "approved" as the claim's designated value "true" requires. -/
theorem verification_lowercase_true_cex :
    (webhookCore "2025-01-04T00:00:00.000Z"
        [("CustomData", JSVal.str "abc"),
         ("VerificationStatus", JSVal.str "true")] pendingStoreAbc).1 =
      ReceiveOutcome.ok "abc" "failed" := by
  decide

/-- C6 (amended): for a known submission, the resulting status is approved
iff the verification-status field is the capitalised string "True" or the
boolean true; every other value (lowercase "true" included, or absence)
yields failed — the result is always one of the two terminal statuses. -/
theorem receive_approved_iff_uppercase_true (nowIso : String)
    (webhookData : List (String × JSVal)) (store : List Submission)
    (id : String) (s : Submission)
    (hid : objGet webhookData "CustomData" = some (JSVal.str id))
    (hne : id ≠ "") (hfound : getSubmission store id = some s) :
    ((webhookCore nowIso webhookData store).1 =
        ReceiveOutcome.ok id "approved" ↔
      (objGet webhookData "VerificationStatus" = some (JSVal.str "True") ∨
       objGet webhookData "VerificationStatus" = some (JSVal.bool true))) ∧
    ((webhookCore nowIso webhookData store).1 =
        ReceiveOutcome.ok id "approved" ∨
     (webhookCore nowIso webhookData store).1 =
        ReceiveOutcome.ok id "failed") := by
  rw [webhookCore_known nowIso webhookData store id s hid hne hfound]
  unfold outcomeOf
  split
  case isTrue h => simp [h]
  case isFalse h => simp [h]

/-- Witness for the amended C6 at a concrete approving callback. -/
theorem receive_approved_iff_uppercase_true_witness :
    objGet [("CustomData", JSVal.str "abc"),
            ("VerificationStatus", JSVal.str "True")] "CustomData" =
      some (JSVal.str "abc") ∧
    "abc" ≠ "" ∧
    getSubmission pendingStoreAbc "abc" = some subPendingAbc ∧
    (((webhookCore "2025-01-04T00:00:00.000Z"
        [("CustomData", JSVal.str "abc"),
         ("VerificationStatus", JSVal.str "True")] pendingStoreAbc).1 =
        ReceiveOutcome.ok "abc" "approved" ↔
      (objGet [("CustomData", JSVal.str "abc"),
               ("VerificationStatus", JSVal.str "True")]
          "VerificationStatus" = some (JSVal.str "True") ∨
       objGet [("CustomData", JSVal.str "abc"),
               ("VerificationStatus", JSVal.str "True")]
          "VerificationStatus" = some (JSVal.bool true))) ∧
    ((webhookCore "2025-01-04T00:00:00.000Z"
        [("CustomData", JSVal.str "abc"),
         ("VerificationStatus", JSVal.str "True")] pendingStoreAbc).1 =
        ReceiveOutcome.ok "abc" "approved" ∨
     (webhookCore "2025-01-04T00:00:00.000Z"
        [("CustomData", JSVal.str "abc"),
         ("VerificationStatus", JSVal.str "True")] pendingStoreAbc).1 =
        ReceiveOutcome.ok "abc" "failed")) :=
  ⟨by decide, by decide, by decide,
   receive_approved_iff_uppercase_true "2025-01-04T00:00:00.000Z"
     [("CustomData", JSVal.str "abc"),
      ("VerificationStatus", JSVal.str "True")] pendingStoreAbc "abc"
     subPendingAbc (by decide) (by decide) (by decide)⟩

/-- Counterexample to C9: for the raw form-encoded callback body
"CustomData=abc&VerificationStatus=True", the value stored in the
submission's payload field is the JSON re-serialization of the parsed
object, which differs byte-for-byte from the raw body. -/
theorem webhook_reserialized_payload_cex :
    ((webhookReceive "2025-01-04T00:00:00.000Z"
        "CustomData=abc&VerificationStatus=True" pendingStoreAbc).2.map
      (fun r => r.webhookData)) =
      [some "\x7b\"CustomData\":\"abc\",\"VerificationStatus\":\"True\"\x7d"] ∧
    "\x7b\"CustomData\":\"abc\",\"VerificationStatus\":\"True\"\x7d" ≠
      "CustomData=abc&VerificationStatus=True" :=
  ⟨by decide, by decide⟩

/-- C9 (amended): a successful `receive()` stores, as the submission's
payload field, `JSON.stringify` of the parsed payload — a re-serialization
of the callback data, not the raw body verbatim. -/
theorem webhook_stores_stringified_payload (nowIso body : String)
    (store : List Submission) (id : String) (s : Submission)
    (hid : objGet (parseWebhookBody body) "CustomData" =
      some (JSVal.str id))
    (hne : id ≠ "") (hfound : getSubmission store id = some s) :
    ∀ r ∈ (webhookReceive nowIso body store).2, r.submissionId = id →
      r.webhookData = some (jsonStringifyObj (parseWebhookBody body)) := by
  unfold webhookReceive
  rw [webhookCore_known nowIso (parseWebhookBody body) store id s hid hne
    hfound]
  intro r hr hrid
  unfold updateSubmissionStatus at hr
  rcases List.mem_map.mp hr with ⟨r0, hr0, rfl⟩
  by_cases h0 : r0.submissionId = id
  · rw [if_pos h0]
  · rw [if_neg h0] at hrid ⊢
    exact absurd hrid h0

/-- Witness for the amended C9 at the concrete form-encoded body. -/
theorem webhook_stores_stringified_payload_witness :
    objGet (parseWebhookBody "CustomData=abc&VerificationStatus=True")
        "CustomData" = some (JSVal.str "abc") ∧
    "abc" ≠ "" ∧
    getSubmission pendingStoreAbc "abc" = some subPendingAbc ∧
    ∀ r ∈ (webhookReceive "2025-01-04T00:00:00.000Z"
        "CustomData=abc&VerificationStatus=True" pendingStoreAbc).2,
      r.submissionId = "abc" →
        r.webhookData = some (jsonStringifyObj
          (parseWebhookBody "CustomData=abc&VerificationStatus=True")) :=
  ⟨by decide, by decide, by decide,
   webhook_stores_stringified_payload "2025-01-04T00:00:00.000Z"
     "CustomData=abc&VerificationStatus=True" pendingStoreAbc "abc"
     subPendingAbc (by decide) (by decide) (by decide)⟩

/-- C3: if the S3 upload of the export file fails, `runExport` leaves the
store unchanged — no record's `exported` flag or `exportedAt` is touched —
so a retry reprocesses the same eligible set. -/
theorem runExport_upload_failure_frame (jsDate : String → String)
    (today nowIso : String) (store : List Submission) :
    (runExport jsDate false today nowIso store).2 = store ∧
    getApprovedRecords (runExport jsDate false today nowIso store).2 =
      getApprovedRecords store := by
  unfold runExport
  by_cases h : (getApprovedRecords store).length = 0 <;> simp [h]

theorem b64Val_b64Char_fin :
    ∀ v : Fin 64, b64Val (b64Char v.val) = some v.val := by decide

theorem b64Val_b64Char {v : Nat} (h : v < 64) : b64Val (b64Char v) = some v :=
  b64Val_b64Char_fin ⟨v, h⟩

theorem b64Char_ne_pad_fin : ∀ v : Fin 64, b64Char v.val ≠ '=' := by decide

theorem b64Char_ne_pad {v : Nat} (h : v < 64) : b64Char v ≠ '=' :=
  b64Char_ne_pad_fin ⟨v, h⟩

theorem base64_roundtrip (bs : List Nat) (h : ∀ b ∈ bs, b < 256) :
    base64decode (base64encode bs) = some bs := by
  induction bs using base64encode.induct
  case case1 => rfl
  case case2 b1 =>
    have hb1 : b1 < 256 := h b1 (by simp)
    simp only [base64encode, base64decode]
    rw [b64Val_b64Char (by omega), b64Val_b64Char (by omega)]
    simp
    omega
  case case3 b1 b2 =>
    have hb1 : b1 < 256 := h b1 (by simp)
    have hb2 : b2 < 256 := h b2 (by simp)
    simp only [base64encode, base64decode]
    rw [b64Val_b64Char (by omega), b64Val_b64Char (by omega)]
    dsimp only
    rw [if_neg (b64Char_ne_pad (show b2 % 16 * 4 < 64 by omega))]
    rw [b64Val_b64Char (show b2 % 16 * 4 < 64 by omega)]
    simp
    omega
  case case4 b1 b2 b3 rest ih =>
    have hb1 : b1 < 256 := h b1 (by simp)
    have hb2 : b2 < 256 := h b2 (by simp)
    have hb3 : b3 < 256 := h b3 (by simp)
    have hrest : ∀ b ∈ rest, b < 256 := fun b hb => h b (by simp [hb])
    simp only [base64encode, base64decode]
    rw [b64Val_b64Char (by omega), b64Val_b64Char (by omega)]
    dsimp only
    rw [if_neg (b64Char_ne_pad (show b2 % 16 * 4 + b3 / 64 < 64 by omega))]
    rw [b64Val_b64Char (show b2 % 16 * 4 + b3 / 64 < 64 by omega)]
    dsimp only
    rw [if_neg (b64Char_ne_pad (show b3 % 64 < 64 by omega))]
    rw [b64Val_b64Char (show b3 % 64 < 64 by omega), ih hrest]
    simp
    refine ⟨by omega, by omega, by omega⟩

theorem toBlocks_eq_cons (l : List Nat) (h : 16 ≤ l.length) :
    toBlocks l = l.take 16 :: toBlocks (l.drop 16) := by
  rcases l with _ | ⟨a1, _ | ⟨a2, _ | ⟨a3, _ | ⟨a4, _ | ⟨a5, _ | ⟨a6, _ |
    ⟨a7, _ | ⟨a8, _ | ⟨a9, _ | ⟨a10, _ | ⟨a11, _ | ⟨a12, _ | ⟨a13, _ |
    ⟨a14, _ | ⟨a15, _ | ⟨a16, rest⟩⟩⟩⟩⟩⟩⟩⟩⟩⟩⟩⟩⟩⟩⟩⟩
  all_goals first
    | rfl
    | (exfalso; simp at h)

theorem flatten_toBlocks (l : List Nat) (hl : l.length % 16 = 0) :
    fromBlocks (toBlocks l) = l := by
  rcases eq_or_ne l [] with rfl | hne
  · rfl
  · have h0 : l.length ≠ 0 := fun h => hne (List.length_eq_zero.mp h)
    have hge : 16 ≤ l.length := by omega
    rw [toBlocks_eq_cons l hge]
    have ih := flatten_toBlocks (l.drop 16)
      (by simp only [List.length_drop]; omega)
    simp only [fromBlocks, List.flatten_cons] at ih ⊢
    rw [ih, List.take_append_drop]
  termination_by l.length
  decreasing_by simp only [List.length_drop]; omega

theorem toBlocks_length_eq (l : List Nat) (hl : l.length % 16 = 0) :
    ∀ b ∈ toBlocks l, b.length = 16 := by
  rcases eq_or_ne l [] with rfl | hne
  · intro b hb
    simp [toBlocks] at hb
  · have h0 : l.length ≠ 0 := fun h => hne (List.length_eq_zero.mp h)
    have hge : 16 ≤ l.length := by omega
    rw [toBlocks_eq_cons l hge]
    intro b hb
    rcases List.mem_cons.mp hb with rfl | hb
    · simp only [List.length_take]
      omega
    · exact toBlocks_length_eq (l.drop 16)
        (by simp only [List.length_drop]; omega) b hb
  termination_by l.length
  decreasing_by simp only [List.length_drop]; omega

theorem toBlocks_mem_mem (l : List Nat) (hl : l.length % 16 = 0) :
    ∀ b ∈ toBlocks l, ∀ x ∈ b, x ∈ l := by
  rcases eq_or_ne l [] with rfl | hne
  · intro b hb
    simp [toBlocks] at hb
  · have h0 : l.length ≠ 0 := fun h => hne (List.length_eq_zero.mp h)
    have hge : 16 ≤ l.length := by omega
    rw [toBlocks_eq_cons l hge]
    intro b hb
    rcases List.mem_cons.mp hb with rfl | hb
    · intro x hx
      exact List.take_subset 16 l hx
    · intro x hx
      exact List.drop_subset 16 l
        (toBlocks_mem_mem (l.drop 16)
          (by simp only [List.length_drop]; omega) b hb x hx)
  termination_by l.length
  decreasing_by simp only [List.length_drop]; omega

theorem toBlocks_flatten_inv (blocks : List (List Nat))
    (h : ∀ b ∈ blocks, b.length = 16) :
    toBlocks (fromBlocks blocks) = blocks := by
  induction blocks with
  | nil => rfl
  | cons b bs ih =>
      have hb : b.length = 16 := h b (by simp)
      simp only [fromBlocks, List.flatten_cons]
      rw [toBlocks_eq_cons _ (by simp [hb])]
      rw [List.take_left' hb, List.drop_left' hb]
      have := ih (fun x hx => h x (List.mem_cons_of_mem b hx))
      simp only [fromBlocks] at this
      rw [this]

theorem xorBytes_cancel (a b : List Nat) (h : a.length = b.length) :
    xorBytes a (xorBytes a b) = b := by
  induction a generalizing b with
  | nil =>
      cases b with
      | nil => rfl
      | cons y ys => simp at h
  | cons x xs ih =>
      cases b with
      | nil => simp at h
      | cons y ys =>
          simp only [xorBytes, List.zipWith_cons_cons]
          rw [← Nat.xor_assoc, Nat.xor_self, Nat.zero_xor]
          exact congrArg (y :: ·) (ih ys (by simpa using h))

theorem xorBytes_lt (a b : List Nat) (ha : ∀ x ∈ a, x < 256)
    (hb : ∀ x ∈ b, x < 256) : ∀ x ∈ xorBytes a b, x < 256 := by
  induction a generalizing b with
  | nil =>
      intro x hx
      simp [xorBytes] at hx
  | cons c cs ih =>
      cases b with
      | nil =>
          intro x hx
          simp [xorBytes] at hx
      | cons d ds =>
          intro x hx
          simp only [xorBytes, List.zipWith_cons_cons] at hx
          rcases List.mem_cons.mp hx with rfl | hx
          · have hc : c < 2 ^ 8 := by simpa using ha c (by simp)
            have hd : d < 2 ^ 8 := by simpa using hb d (by simp)
            simpa using Nat.xor_lt_two_pow hc hd
          · exact ih ds (fun y hy => ha y (by simp [hy]))
              (fun y hy => hb y (by simp [hy])) x hx

theorem xorBytes_length_eq (a b : List Nat) (ha : a.length = 16)
    (hb : b.length = 16) : (xorBytes a b).length = 16 := by
  simp [xorBytes, List.length_zipWith, ha, hb]

theorem cbcDec_cbcEnc (enc dec : List Nat → List Nat)
    (hdec : ∀ b, b.length = 16 → dec (enc b) = b)
    (hlen : ∀ b, b.length = 16 → (enc b).length = 16) :
    ∀ (bs : List (List Nat)) (prev : List Nat), prev.length = 16 →
      (∀ b ∈ bs, b.length = 16) →
      cbcDecBlocks dec prev (cbcEncBlocks enc prev bs) = bs := by
  intro bs
  induction bs with
  | nil =>
      intro prev _ _
      rfl
  | cons b rest ih =>
      intro prev hprev hbs
      have hb : b.length = 16 := hbs b (by simp)
      have hxor : (xorBytes prev b).length = 16 :=
        xorBytes_length_eq prev b hprev hb
      simp only [cbcEncBlocks, cbcDecBlocks]
      rw [hdec _ hxor, xorBytes_cancel prev b (by omega)]
      exact congrArg (b :: ·)
        (ih (enc (xorBytes prev b)) (hlen _ hxor)
          (fun x hx => hbs x (by simp [hx])))

theorem cbcEncBlocks_props (enc : List Nat → List Nat)
    (hlen : ∀ b, b.length = 16 → (enc b).length = 16)
    (hbytes : ∀ b, b.length = 16 → (∀ x ∈ b, x < 256) →
      ∀ x ∈ enc b, x < 256) :
    ∀ (bs : List (List Nat)) (prev : List Nat), prev.length = 16 →
      (∀ x ∈ prev, x < 256) →
      (∀ b ∈ bs, b.length = 16 ∧ ∀ x ∈ b, x < 256) →
      ∀ c ∈ cbcEncBlocks enc prev bs, c.length = 16 ∧ ∀ x ∈ c, x < 256 := by
  intro bs
  induction bs with
  | nil =>
      intro prev _ _ _ c hc
      simp [cbcEncBlocks] at hc
  | cons b rest ih =>
      intro prev hprev hprevb hbs c hc
      have hb : b.length = 16 := (hbs b (by simp)).1
      have hbb : ∀ x ∈ b, x < 256 := (hbs b (by simp)).2
      have hxorlen : (xorBytes prev b).length = 16 :=
        xorBytes_length_eq prev b hprev hb
      have hxorb : ∀ x ∈ xorBytes prev b, x < 256 :=
        xorBytes_lt prev b hprevb hbb
      have hheadlen : (enc (xorBytes prev b)).length = 16 := hlen _ hxorlen
      have hheadb : ∀ x ∈ enc (xorBytes prev b), x < 256 :=
        hbytes _ hxorlen hxorb
      simp only [cbcEncBlocks] at hc
      rcases List.mem_cons.mp hc with rfl | hc
      · exact ⟨hheadlen, hheadb⟩
      · exact ih (enc (xorBytes prev b)) hheadlen hheadb
          (fun x hx => hbs x (by simp [hx])) c hc

theorem pkcs7pad_length_mod (m : List Nat) : (pkcs7pad m).length % 16 = 0 := by
  simp only [pkcs7pad, List.length_append, List.length_replicate]
  omega

theorem pkcs7pad_lt (m : List Nat) (h : ∀ x ∈ m, x < 256) :
    ∀ x ∈ pkcs7pad m, x < 256 := by
  intro x hx
  simp only [pkcs7pad, List.mem_append, List.mem_replicate] at hx
  rcases hx with hx | ⟨_, rfl⟩
  · exact h x hx
  · omega

theorem pkcs7unpad_pad (m : List Nat) : pkcs7unpad (pkcs7pad m) = some m := by
  set k := 16 - m.length % 16 with hk
  have hk1 : 1 ≤ k := by omega
  have hk16 : k ≤ 16 := by omega
  have hpad : pkcs7pad m = m ++ List.replicate k k := by
    simp [pkcs7pad, ← hk]
  have hlenp : (pkcs7pad m).length = m.length + k := by
    simp [hpad]
  have hrepl : List.replicate k k = List.replicate (k - 1) k ++ [k] := by
    have h2 : List.replicate ((k - 1) + 1) k =
        List.replicate (k - 1) k ++ [k] := List.replicate_succ' (k - 1) k
    rwa [show (k - 1) + 1 = k by omega] at h2
  have hlast : (pkcs7pad m).getLast? = some k := by
    rw [hpad, hrepl, ← List.append_assoc]
    exact List.getLast?_concat _
  have hsub : (pkcs7pad m).length - k = m.length := by omega
  have hdrop : (pkcs7pad m).drop ((pkcs7pad m).length - k) =
      List.replicate k k := by
    rw [hsub, hpad, List.drop_left' rfl]
  have htake : (pkcs7pad m).take ((pkcs7pad m).length - k) = m := by
    rw [hsub, hpad, List.take_left' rfl]
  unfold pkcs7unpad
  rw [hlast]
  dsimp only
  rw [if_pos ⟨hk1, hk16, by omega, by
    rw [hdrop]
    simp [List.all_eq_true, List.eq_of_mem_replicate]⟩]
  rw [htake]

theorem string_mk_data (l : List Char) : (String.mk l).data = l := rfl

theorem encrypt_decrypt_core (sha256 : String → List Nat)
    (aesEnc aesDec : List Nat → List Nat → List Nat)
    (sharedSecret : String) (iv m : List Nat)
    (hiv : iv.length = 16) (hivb : ∀ x ∈ iv, x < 256)
    (hm : ∀ x ∈ m, x < 256)
    (henclen : ∀ b, b.length = 16 →
      (aesEnc (sha256 sharedSecret) b).length = 16)
    (hencbytes : ∀ b, b.length = 16 → (∀ x ∈ b, x < 256) →
      ∀ x ∈ aesEnc (sha256 sharedSecret) b, x < 256)
    (hdec : ∀ b, b.length = 16 →
      aesDec (sha256 sharedSecret) (aesEnc (sha256 sharedSecret) b) = b) :
    decryptQueryString sha256 aesDec
      (encryptQueryString sha256 aesEnc iv m sharedSecret) sharedSecret =
      some m := by
  have hpadmod := pkcs7pad_length_mod m
  have hpadlt := pkcs7pad_lt m hm
  have hblen : ∀ b ∈ toBlocks (pkcs7pad m), b.length = 16 :=
    toBlocks_length_eq _ hpadmod
  have hbprops : ∀ b ∈ toBlocks (pkcs7pad m),
      b.length = 16 ∧ ∀ x ∈ b, x < 256 :=
    fun b hb => ⟨hblen b hb,
      fun x hx => hpadlt x (toBlocks_mem_mem _ hpadmod b hb x hx)⟩
  have hct := cbcEncBlocks_props (aesEnc (sha256 sharedSecret)) henclen
    hencbytes (toBlocks (pkcs7pad m)) iv hiv hivb hbprops
  have hbytes : ∀ x ∈ iv ++ fromBlocks (cbcEncBlocks
      (aesEnc (sha256 sharedSecret)) iv (toBlocks (pkcs7pad m))), x < 256 := by
    intro x hx
    rcases List.mem_append.mp hx with hx | hx
    · exact hivb x hx
    · simp only [fromBlocks] at hx
      rcases List.mem_flatten.mp hx with ⟨c, hc, hxc⟩
      exact (hct c hc).2 x hxc
  simp only [encryptQueryString, decryptQueryString, string_mk_data]
  rw [base64_roundtrip _ hbytes]
  dsimp only
  have htake : (iv ++ fromBlocks (cbcEncBlocks (aesEnc (sha256 sharedSecret))
      iv (toBlocks (pkcs7pad m)))).take 16 = iv := by
    rw [← hiv]
    exact List.take_left iv _
  have hdrop : (iv ++ fromBlocks (cbcEncBlocks (aesEnc (sha256 sharedSecret))
      iv (toBlocks (pkcs7pad m)))).drop 16 =
      fromBlocks (cbcEncBlocks (aesEnc (sha256 sharedSecret)) iv
        (toBlocks (pkcs7pad m))) := by
    rw [← hiv]
    exact List.drop_left iv _
  rw [htake, hdrop]
  rw [toBlocks_flatten_inv _ (fun c hc => (hct c hc).1)]
  rw [cbcDec_cbcEnc (aesEnc (sha256 sharedSecret))
    (aesDec (sha256 sharedSecret)) hdec henclen (toBlocks (pkcs7pad m))
    iv hiv hblen]
  rw [show fromBlocks (toBlocks (pkcs7pad m)) = pkcs7pad m from
    flatten_toBlocks _ hpadmod]
  exact pkcs7unpad_pad m

/-- C5: the round-trip property of the handoff encryption.  For every
plaintext byte string and every non-empty shared secret, decrypting the
output of `encryptQueryString` — AES-256-CBC under the SHA-256 hash of the
secret, the 16-byte IV recovered from the base64-decoded prefix — returns
the plaintext.  The block-cipher parameters carry the inverse and
length/byte-range properties AES-256 has. -/
theorem encrypt_decrypt_roundtrip (sha256 : String → List Nat)
    (aesEnc aesDec : List Nat → List Nat → List Nat)
    (sharedSecret : String) (iv m : List Nat)
    (_hsecret : sharedSecret ≠ "")
    (hiv : iv.length = 16) (hivb : ∀ x ∈ iv, x < 256)
    (hm : ∀ x ∈ m, x < 256)
    (henclen : ∀ b, b.length = 16 →
      (aesEnc (sha256 sharedSecret) b).length = 16)
    (hencbytes : ∀ b, b.length = 16 → (∀ x ∈ b, x < 256) →
      ∀ x ∈ aesEnc (sha256 sharedSecret) b, x < 256)
    (hdec : ∀ b, b.length = 16 →
      aesDec (sha256 sharedSecret) (aesEnc (sha256 sharedSecret) b) = b) :
    decryptQueryString sha256 aesDec
      (encryptQueryString sha256 aesEnc iv m sharedSecret) sharedSecret =
      some m :=
  encrypt_decrypt_core sha256 aesEnc aesDec sharedSecret iv m hiv hivb hm
    henclen hencbytes hdec

/-- Witness for C5 at a concrete secret, IV, plaintext and an identity
block-cipher instance. -/
theorem encrypt_decrypt_roundtrip_witness :
    ("secret" : String) ≠ "" ∧
    (List.replicate 16 0 : List Nat).length = 16 ∧
    (∀ x ∈ (List.replicate 16 0 : List Nat), x < 256) ∧
    (∀ x ∈ ([104, 105] : List Nat), x < 256) ∧
    decryptQueryString (fun _ => List.replicate 32 0) (fun _ b => b)
      (encryptQueryString (fun _ => List.replicate 32 0) (fun _ b => b)
        (List.replicate 16 0) [104, 105] "secret") "secret" =
      some [104, 105] :=
  ⟨by decide, by decide, by decide, by decide,
   encrypt_decrypt_roundtrip (fun _ => List.replicate 32 0) (fun _ b => b)
     (fun _ b => b) "secret" (List.replicate 16 0) [104, 105] (by decide)
     (by decide) (by decide) (by decide) (fun _ h => h) (fun _ _ hb => hb)
     (fun _ _ => rfl)⟩

/-- Counterexample to C8: with the empty shared secret, `encryptQueryString`
does not fail — it hashes the empty string into a key and returns a normal
ciphertext, which even decrypts back to the plaintext (evaluated here at a
concrete plaintext and cipher instance). -/
theorem encrypt_empty_secret_succeeds_cex :
    decryptQueryString (fun _ => List.replicate 32 0) (fun _ b => b)
      (encryptQueryString (fun _ => List.replicate 32 0) (fun _ b => b)
        (List.replicate 16 0) [7] "") "" = some [7] := by decide

/-- C8 (amended): `encryptQueryString` has no error path and never raises
a CryptoError: for the empty shared secret it derives the key as the
SHA-256 hash of the empty string and encrypts normally — the round trip
holds for the empty secret exactly as for any other. -/
theorem encrypt_empty_secret_roundtrip (sha256 : String → List Nat)
    (aesEnc aesDec : List Nat → List Nat → List Nat) (iv m : List Nat)
    (hiv : iv.length = 16) (hivb : ∀ x ∈ iv, x < 256)
    (hm : ∀ x ∈ m, x < 256)
    (henclen : ∀ b, b.length = 16 → (aesEnc (sha256 "") b).length = 16)
    (hencbytes : ∀ b, b.length = 16 → (∀ x ∈ b, x < 256) →
      ∀ x ∈ aesEnc (sha256 "") b, x < 256)
    (hdec : ∀ b, b.length = 16 →
      aesDec (sha256 "") (aesEnc (sha256 "") b) = b) :
    decryptQueryString sha256 aesDec
      (encryptQueryString sha256 aesEnc iv m "") "" = some m :=
  encrypt_decrypt_core sha256 aesEnc aesDec "" iv m hiv hivb hm henclen
    hencbytes hdec

/-- Witness for the amended C8 at a concrete plaintext and cipher. -/
theorem encrypt_empty_secret_roundtrip_witness :
    (List.replicate 16 0 : List Nat).length = 16 ∧
    (∀ x ∈ (List.replicate 16 0 : List Nat), x < 256) ∧
    (∀ x ∈ ([42] : List Nat), x < 256) ∧
    decryptQueryString (fun _ => List.replicate 32 1) (fun _ b => b)
      (encryptQueryString (fun _ => List.replicate 32 1) (fun _ b => b)
        (List.replicate 16 0) [42] "") "" = some [42] :=
  ⟨by decide, by decide, by decide,
   encrypt_empty_secret_roundtrip (fun _ => List.replicate 32 1)
     (fun _ b => b) (fun _ b => b) (List.replicate 16 0) [42] (by decide)
     (by decide) (by decide) (fun _ h => h) (fun _ _ hb => hb)
     (fun _ _ => rfl)⟩

end DirectDebit
